import Mathlib

/-!
# Verification development for `main.go` (gin joke API behind JWT authentication)

The Go program is embedded shallowly:

* the package-level variable `jokes` is threaded explicitly through every handler;
* Go `int` is a 64-bit two's-complement integer, modelled as `Int` with explicit wrapping;
* the gin `Context` / `ResponseWriter` are records, handlers are state transformers;
* calls whose results the program only consumes (the HTTP fetch and JSON decoding of the key
  set, the token check `CheckJWT` of the middleware) are parameters of the model;
* the library routines whose behaviour decides a branch of main.go (`strconv.Atoi`,
  `MapClaims.VerifyAudience` of jwt-go, the gin response writer and handler chain) are
  transcribed from those libraries.
-/

set_option linter.dupNamespace false

namespace JokeApp

/-! ## Data model (main.go, lines 18-49) -/

/-- The `Joke` struct of main.go. -/
structure Joke where
  ID : Int
  Likes : Int
  Joke : String
  deriving DecidableEq, Repr

/-- The `JSONWebKeys` struct of main.go. -/
structure JSONWebKeys where
  Kty : String
  Kid : String
  Use : String
  N : String
  E : String
  X5c : List String
  deriving DecidableEq, Repr

/-- The `Jwks` struct of main.go. -/
structure Jwks where
  Keys : List JSONWebKeys
  deriving DecidableEq, Repr

/-- The package-level variable `jokes` as initialised at startup. -/
def jokes : List Joke :=
  [ ⟨1, 0, "Did you hear about the restaurant on the moon? Great food, no atmosphere."⟩,
    ⟨2, 0, "What do you call a fake noodle? An Impasta."⟩,
    ⟨3, 0, "How many apples grow on a tree? All of them."⟩,
    ⟨4, 0, "Want to hear a joke about paper? Nevermind it's tearable."⟩,
    ⟨5, 0, "I just watched a program about beavers. It was the best dam program I've ever seen."⟩,
    ⟨6, 0, "Why did the coffee file a police report? It got mugged."⟩,
    ⟨7, 0, "How does a penguin build it's house? Igloos it together."⟩ ]

/-! ## Machine integers and `strconv.Atoi` -/

/-- Largest value of a Go `int` (64-bit). -/
def maxInt : Int := 9223372036854775807

/-- Smallest value of a Go `int` (64-bit). -/
def minInt : Int := -9223372036854775808

/-- Two's-complement wrap-around of a mathematical integer into the range of Go `int`. -/
def wrapInt (x : Int) : Int :=
  (x + 9223372036854775808) % 18446744073709551616 - 9223372036854775808

/-- Value of a decimal digit byte, `none` for any other byte (`ch -= '0'; if ch > 9`). -/
def digitVal (c : Char) : Option Nat :=
  if 48 ≤ c.toNat ∧ c.toNat ≤ 57 then some (c.toNat - 48) else none

/-- The digit loop of `strconv.Atoi`: accumulates `n = n*10 + digit`, fails on a non-digit. -/
def atoiDigits : Nat → List Char → Option Nat
  | n, [] => some n
  | n, c :: cs =>
    match digitVal c with
    | none => none
    | some d => atoiDigits (n * 10 + d) cs

/-- Go `strconv.Atoi` for 64-bit `int`: an optional sign followed by at least one decimal
digit, the value within the range of `int`; `none` stands for a non-nil error (syntax or
range). -/
def Atoi (s : String) : Option Int :=
  match s.toList with
  | [] => none
  | c :: cs =>
    let neg := decide (c = '-')
    let ds := if c = '-' ∨ c = '+' then cs else c :: cs
    match ds with
    | [] => none
    | _ :: _ =>
      match atoiDigits 0 ds with
      | none => none
      | some n =>
        let v : Int := if neg then -(n : Int) else (n : Int)
        if minInt ≤ v ∧ v ≤ maxInt then some v else none

/-! ## The gin response writer and context -/

/-- A piece of response body: raw bytes given as text, or the JSON rendering of a joke list. -/
inductive Chunk where
  | text (s : String)
  | json (js : List Joke)
  deriving DecidableEq, Repr

/-- The gin `responseWriter`: `status` is the status code field, `wire` is the status line
already sent to the client (`none` while nothing has been written), `headers` the header map
and `body` the chunks written so far. -/
structure ResponseWriter where
  status : Nat
  wire : Option Nat
  headers : List (String × String)
  body : List Chunk
  deriving DecidableEq, Repr

/-- A fresh response writer (`defaultStatus` is 200, nothing written). -/
def ResponseWriter.fresh : ResponseWriter := ⟨200, none, [], []⟩

/-- The gin `responseWriter.WriteHeader`: records the status code. -/
def ResponseWriter.WriteHeader (w : ResponseWriter) (code : Nat) : ResponseWriter :=
  if 0 < code ∧ w.status ≠ code then { w with status := code } else w

/-- The gin `responseWriter.WriteHeaderNow`: sends the status line unless already sent. -/
def ResponseWriter.WriteHeaderNow (w : ResponseWriter) : ResponseWriter :=
  match w.wire with
  | none => { w with wire := some w.status }
  | some _ => w

/-- The gin `responseWriter.Write`: sends the status line if needed, then appends the data. -/
def ResponseWriter.Write (w : ResponseWriter) (data : Chunk) : ResponseWriter :=
  let w1 := w.WriteHeaderNow
  { w1 with body := w1.body ++ [data] }

/-- Header map update (`Header().Set`). -/
def setHeader (hs : List (String × String)) (k v : String) : List (String × String) :=
  (k, v) :: hs.filter (fun p => p.1 ≠ k)

/-- The gin `abortIndex` (`math.MaxInt8 / 2`). -/
def abortIndex : Int := 63

/-- The incoming `http.Request`, reduced to method, path and header fields. -/
structure Request where
  Method : String
  Path : String
  Header : List (String × String)
  deriving DecidableEq, Repr

/-- The gin `Context`, reduced to what main.go touches: the request, the path parameters, the
response writer and the handler index. -/
structure Context where
  Request : Request
  Params : List (String × String)
  Writer : ResponseWriter
  index : Int
  deriving DecidableEq, Repr

/-- The gin `Context.Param`: value of a path parameter, the empty string when absent. -/
def Context.Param (c : Context) (key : String) : String :=
  match c.Params.lookup key with
  | some v => v
  | none => ""

/-- The gin `Context.Abort`. -/
def Context.Abort (c : Context) : Context := { c with index := abortIndex }

/-- The gin `Context.IsAborted`. -/
def Context.IsAborted (c : Context) : Bool := decide (abortIndex ≤ c.index)

/-- The gin `Context.Header`. -/
def Context.Header (c : Context) (k v : String) : Context :=
  { c with Writer := { c.Writer with headers := setHeader c.Writer.headers k v } }

/-- The gin `Context.JSON` specialised to a joke list: sets the status, sets the content
type unless one is present, writes the JSON rendering. -/
def Context.JSON (c : Context) (code : Nat) (obj : List Joke) : Context :=
  let w1 := c.Writer.WriteHeader code
  let w2 : ResponseWriter :=
    match w1.headers.lookup "Content-Type" with
    | some _ => w1
    | none => { w1 with headers := setHeader w1.headers "Content-Type" "application/json; charset=utf-8" }
  { c with Writer := w2.Write (Chunk.json obj) }

/-- The gin `Context.AbortWithStatus`. -/
def Context.AbortWithStatus (c : Context) (code : Nat) : Context :=
  let w := (c.Writer.WriteHeader code).WriteHeaderNow
  ({ c with Writer := w }).Abort

/-- A gin handler acting on the context and on the package-level joke list. -/
abbrev HandlerFunc := Context → List Joke → Context × List Joke

/-! ## Handlers of main.go -/

/-- `JokeHandler` (main.go, lines 85-88). -/
def JokeHandler : HandlerFunc := fun context jokes =>
  ((context.Header "Content-Type" "application/json").JSON 200 jokes, jokes)

/-- The statement `jokes[i].Likes += 1` on the element at index `i`. -/
def incrLikes (jokes : List Joke) (i : Nat) : List Joke :=
  match jokes.get? i with
  | some j => jokes.set i { j with Likes := wrapInt (j.Likes + 1) }
  | none => jokes

/-- The loop `for i := 0; i < len(jokes); i++` of `LikeJoke`, started at index `i`; `fuel`
bounds the number of iterations. -/
def likeLoop (jokeid : Int) : Nat → Nat → List Joke → List Joke
  | 0, _, jokes => jokes
  | fuel + 1, i, jokes =>
    if i < jokes.length then
      match jokes.get? i with
      | some j =>
        if j.ID = jokeid then likeLoop jokeid fuel (i + 1) (incrLikes jokes i)
        else likeLoop jokeid fuel (i + 1) jokes
      | none => jokes
    else jokes

/-- `LikeJoke` (main.go, lines 90-103). -/
def LikeJoke : HandlerFunc := fun context jokes =>
  match Atoi (context.Param "jokeID") with
  | some jokeid =>
    let jokes1 := likeLoop jokeid jokes.length 0 jokes
    (context.JSON 200 jokes1, jokes1)
  | none => (context.AbortWithStatus 404, jokes)

/-! ## The handler chain of gin and the authentication middleware -/

/-- The loop of the gin `Context.Next`: while `index` is below the number of handlers, run the
handler at `index` and increment `index`. `fuel` bounds the number of iterations; `none` means
that no result was produced (fuel exhausted, or an index below zero). -/
def nextLoop (handlers : List HandlerFunc) : Nat → Context → List Joke → Option (Context × List Joke)
  | 0, _, _ => none
  | fuel + 1, c, js =>
    if c.index < (handlers.length : Int) then
      if c.index < 0 then none
      else
        match handlers.get? c.index.toNat with
        | some h =>
          let r := h c js
          nextLoop handlers fuel { r.1 with index := r.1.index + 1 } r.2
        | none => none
    else some (c, js)

/-- The gin `Context.Next`: increments `index`, then runs the remaining handlers. -/
def Context.Next (handlers : List HandlerFunc) (fuel : Nat) (c : Context) (js : List Joke) :
    Option (Context × List Joke) :=
  nextLoop handlers fuel { c with index := c.index + 1 } js

/-- Serving one request on a route (gin `handleHTTPRequest`): a context with a fresh writer and
`index = -1` runs the route's handlers, then the status line is sent if it was not yet. -/
def serve (handlers : List HandlerFunc) (fuel : Nat) (req : Request)
    (params : List (String × String)) (js : List Joke) : Option (Context × List Joke) :=
  match Context.Next handlers fuel ⟨req, params, ResponseWriter.fresh, -1⟩ js with
  | some (c, js1) => some ({ c with Writer := c.Writer.WriteHeaderNow }, js1)
  | none => none

/-- The call `jwtMiddleWare.CheckJWT(w, r)` of the go-jwt-middleware library, a parameter of the
model: it receives the response writer and the request, may write to the response, and
returns an error (`some`) or `nil` (`none`). -/
abbrev CheckJWT := ResponseWriter → Request → ResponseWriter × Option String

/-- `authMiddleware` (main.go, lines 105-119). -/
def authMiddleware (check : CheckJWT) : HandlerFunc := fun context jokes =>
  let r := check context.Writer context.Request
  match r.2 with
  | some _ =>
    let c1 := ({ context with Writer := r.1 }).Abort
    let w1 := c1.Writer.WriteHeader 401
    let w2 := w1.Write (Chunk.text "Unauthorized")
    ({ c1 with Writer := w2 }, jokes)
  | none => ({ context with Writer := r.1 }, jokes)

/-- The handler chain of a protected route, as registered in `main`
(`api.GET("/jokes", authMiddleware(), JokeHandler)` and
`api.POST("/jokes/like/:jokeID", authMiddleware(), LikeJoke)`). -/
def protectedRoute (check : CheckJWT) (handler : HandlerFunc) : List HandlerFunc :=
  [authMiddleware check, handler]

/-- The default error handler of go-jwt-middleware (`OnError`), which `CheckJWT` calls before it
returns an error: `http.Error(w, err, http.StatusUnauthorized)`. -/
def OnError (w : ResponseWriter) (err : String) : ResponseWriter :=
  let h1 := setHeader w.headers "Content-Type" "text/plain; charset=utf-8"
  let h2 := setHeader h1 "X-Content-Type-Options" "nosniff"
  (({ w with headers := h2 }).WriteHeader 401).Write (Chunk.text (err ++ "\n"))

/-- The token check of go-jwt-middleware on a request that carries no token, with the default
options used by `main`: the error handler is called, then the error is returned. -/
def checkTokenMissing : CheckJWT := fun w _ =>
  (OnError w "Required authorization token not found", some "Required authorization token not found")

/-! ## Token validation (main.go, lines 121-172) -/

/-- A dynamically typed value (`interface{}`) of a token header or claim set: a string, or a
value of any other type. -/
inductive Value where
  | str (s : String)
  | other
  deriving DecidableEq, Repr

/-- The `jwt.Token` of jwt-go, reduced to its header and claim maps. -/
structure Token where
  Header : List (String × Value)
  Claims : List (String × Value)
  deriving DecidableEq, Repr

/-- The `verifyAud` helper of jwt-go: an empty audience passes unless the claim is required,
otherwise the audience must equal `cmp` (constant-time byte comparison). -/
def verifyAud (aud cmp : String) (required : Bool) : Bool :=
  if aud = "" then !required else decide (aud = cmp)

/-- The `MapClaims.VerifyAudience` of jwt-go: `aud, _ := m["aud"].(string)`, so a missing or
non-string claim reads as the empty string. -/
def VerifyAudience (m : List (String × Value)) (cmp : String) (req : Bool) : Bool :=
  let aud : String :=
    match m.lookup "aud" with
    | some (Value.str s) => s
    | _ => ""
  verifyAud aud cmp req

/-- The environment variables read by main.go (`os.Getenv`; an unset variable reads as ""). -/
structure Env where
  AUTH0_API_AUDIENCE : String
  AUTH0_DOMAIN : String
  deriving DecidableEq, Repr

/-- What `http.Get` followed by `json.NewDecoder(resp.Body).Decode(&jwks)` yields for a URL. -/
inductive FetchResult where
  | transportError (e : String)
  | decodeError (e : String)
  | decoded (jwks : Jwks)
  deriving DecidableEq, Repr

/-- How a Go call ends: it returns a value together with an error (`none` is `nil`), it
panics, or it terminates the process (`log.Fatalf`). -/
inductive Exec (α : Type) where
  | ret (val : α) (err : Option String)
  | panic (msg : String)
  | fatal (msg : String)
  deriving DecidableEq, Repr

/-- A finished call together with the URLs it requested over the network, in order. -/
structure Run (α : Type) where
  fetched : List String
  out : Exec α
  deriving DecidableEq, Repr

/-- The PEM wrapping built in `getPemCert`. -/
def pemWrap (v : String) : String :=
  "-----BEGIN CERTIFICATE-----\n" ++ v ++ "\n-----END CERTIFICATE-----"

/-- The loop `for k, v := range x5c` of `getPemCert`, at index `k` with the rest of `x5c`:
`jwks.Keys[k]` is read at every iteration (`none` is the index-out-of-range panic), and `cert`
is overwritten at every match. -/
def certLoop (kid : Option Value) (keys : List JSONWebKeys) : Nat → List String → String → Option String
  | _, [], cert => some cert
  | k, v :: rest, cert =>
    match keys.get? k with
    | none => none
    | some key =>
      if kid = some (Value.str key.Kid) then certLoop kid keys (k + 1) rest (pemWrap v)
      else certLoop kid keys (k + 1) rest cert

/-- `getPemCert` (main.go, lines 144-172); `fetch` stands for the network and the JSON decoder. -/
def getPemCert (fetch : String → FetchResult) (env : Env) (token : Token) : Run String :=
  let url := env.AUTH0_DOMAIN ++ ".well-known/jwks.json"
  match fetch url with
  | FetchResult.transportError e => ⟨[url], Exec.ret "" (some e)⟩
  | FetchResult.decodeError e => ⟨[url], Exec.ret "" (some e)⟩
  | FetchResult.decoded jwks =>
    match jwks.Keys.get? 0 with
    | none => ⟨[url], Exec.panic "runtime error: index out of range"⟩
    | some key0 =>
      match certLoop (token.Header.lookup "kid") jwks.Keys 0 key0.X5c "" with
      | none => ⟨[url], Exec.panic "runtime error: index out of range"⟩
      | some cert =>
        if cert = "" then ⟨[url], Exec.ret cert (some "unable to find appropriate key.")⟩
        else ⟨[url], Exec.ret cert none⟩

/-- The first result of `ValidationKeyGetter`: the token itself, or the outcome of
`jwt.ParseRSAPublicKeyFromPEM` on a PEM string (its error is discarded by the source). -/
inductive Returned where
  | token (t : Token)
  | publicKey (pem : String)
  deriving DecidableEq, Repr

/-- `ValidationKeyGetter` (main.go, lines 121-142). -/
def ValidationKeyGetter (fetch : String → FetchResult) (env : Env) (token : Token) : Run Returned :=
  let aud := env.AUTH0_API_AUDIENCE
  let checkAudience := VerifyAudience token.Claims aud false
  if !checkAudience then ⟨[], Exec.ret (Returned.token token) (some "Invalid audience.")⟩
  else
    let iss := env.AUTH0_DOMAIN
    let checkIss := VerifyAudience token.Claims iss false
    if !checkIss then ⟨[], Exec.ret (Returned.token token) (some "Invalid issuer.")⟩
    else
      match getPemCert fetch env token with
      | ⟨f, Exec.ret cert none⟩ => ⟨f, Exec.ret (Returned.publicKey cert) none⟩
      | ⟨f, Exec.ret _ (some e)⟩ => ⟨f, Exec.fatal ("could not get cert: " ++ e)⟩
      | ⟨f, Exec.panic m⟩ => ⟨f, Exec.panic m⟩
      | ⟨f, Exec.fatal m⟩ => ⟨f, Exec.fatal m⟩

/-! ## Auxiliary definitions used in the statements -/

/-- The effect of one pass of the loop of `LikeJoke` on a single joke. -/
def likeOne (jokeid : Int) (j : Joke) : Joke :=
  if j.ID = jokeid then { j with Likes := wrapInt (j.Likes + 1) } else j

/-- Sequential processing of like requests by `LikeJoke`, one context per request. -/
def likeAll (cs : List Context) (js : List Joke) : List Joke :=
  cs.foldl (fun acc c => (LikeJoke c acc).2) js

/-- The context in which a handler of `POST /api/jokes/like/:jokeID` starts when the path
parameter is `p` and nothing has been written to the response. -/
def likeContext (p : String) : Context :=
  ⟨⟨"POST", "/api/jokes/like/" ++ p, []⟩, [("jokeID", p)], ResponseWriter.fresh, 1⟩

/-- The states of the package-level joke list that the program can reach: the startup list, and
the list after any handler of main.go has run on a reachable list. -/
inductive Reachable : List Joke → Prop where
  | startup : Reachable jokes
  | afterJokeHandler (c : Context) {js : List Joke} : Reachable js → Reachable (JokeHandler c js).2
  | afterLikeJoke (c : Context) {js : List Joke} : Reachable js → Reachable (LikeJoke c js).2
  | afterAuth (check : CheckJWT) (c : Context) {js : List Joke} :
      Reachable js → Reachable (authMiddleware check c js).2

/-- Decimal digits of a natural number, most significant first (`fuel` bounds the length). -/
def decDigits : Nat → Nat → List Char
  | 0, _ => ['0']
  | fuel + 1, n =>
    if n < 10 then [Char.ofNat (48 + n)]
    else decDigits fuel (n / 10) ++ [Char.ofNat (48 + n % 10)]

/-- Decimal rendering of an integer with an explicit sign. -/
def signedDecimal (id : Int) : String :=
  if id < 0 then String.mk ('-' :: decDigits (id.natAbs + 1) id.natAbs)
  else String.mk ('+' :: decDigits (id.natAbs + 1) id.natAbs)

/-! ## Sample inputs -/

/-- A key record with the given key id and certificate values. -/
def mkKey (kid : String) (x5c : List String) : JSONWebKeys := ⟨"RSA", kid, "sig", "n", "AQAB", x5c⟩

/-- A network that answers every request with the given key set. -/
def fetchKeys (keys : List JSONWebKeys) : String → FetchResult := fun _ => FetchResult.decoded ⟨keys⟩

/-- A sample configuration with distinct audience and issuer. -/
def sampleEnv : Env := ⟨"https://jokes-api", "https://tenant.auth0.com/"⟩

/-- A token with the given key id and claims. -/
def mkToken (kid : String) (claims : List (String × Value)) : Token := ⟨[("kid", Value.str kid)], claims⟩

/-! ## Lemmas about the like loop -/

theorem get_at_prefix_length (pre suf : List Joke) (j : Joke) :
    (pre ++ j :: suf).get? pre.length = some j := by
  induction pre with
  | nil => rfl
  | cons a as ih => simpa using ih

theorem incrLikes_pre (pre suf : List Joke) (j : Joke) :
    incrLikes (pre ++ j :: suf) pre.length
      = pre ++ { j with Likes := wrapInt (j.Likes + 1) } :: suf := by
  unfold incrLikes
  rw [get_at_prefix_length]
  simp

theorem likeLoop_split (jokeid : Int) (fuel : Nat) :
    ∀ pre suf : List Joke, suf.length ≤ fuel →
      likeLoop jokeid fuel pre.length (pre ++ suf) = pre ++ suf.map (likeOne jokeid) := by
  induction fuel with
  | zero =>
    intro pre suf h
    have : suf = [] := List.length_eq_zero.mp (Nat.le_zero.mp h)
    subst this
    simp [likeLoop]
  | succ n ih =>
    intro pre suf h
    cases suf with
    | nil => simp [likeLoop]
    | cons j rest =>
      have hlen : rest.length ≤ n := by simpa using h
      have hlt : pre.length < (pre ++ j :: rest).length := by simp
      rw [likeLoop, if_pos hlt, get_at_prefix_length]
      by_cases hj : j.ID = jokeid
      · simp only [hj, if_true]
        rw [incrLikes_pre]
        have e : pre ++ { j with Likes := wrapInt (j.Likes + 1) } :: rest
            = (pre ++ [{ j with Likes := wrapInt (j.Likes + 1) }]) ++ rest := by simp
        have l : pre.length + 1 = (pre ++ [{ j with Likes := wrapInt (j.Likes + 1) }]).length := by simp
        rw [e, l, ih _ _ hlen]
        simp [likeOne, hj]
      · simp only [hj, if_false]
        have e : pre ++ j :: rest = (pre ++ [j]) ++ rest := by simp
        have l : pre.length + 1 = (pre ++ [j]).length := by simp
        rw [e, l, ih _ _ hlen]
        simp [likeOne, hj]

theorem likeLoop_eq_map (jokeid : Int) (js : List Joke) :
    likeLoop jokeid js.length 0 js = js.map (likeOne jokeid) := by
  have := likeLoop_split jokeid js.length [] js (le_refl _)
  simpa using this

theorem wrapInt_id (x : Int) (h1 : minInt ≤ x) (h2 : x ≤ maxInt) : wrapInt x = x := by
  unfold wrapInt
  unfold minInt at h1
  unfold maxInt at h2
  omega

theorem LikeJoke_state (c : Context) (js : List Joke) (id : Int)
    (h : Atoi (c.Param "jokeID") = some id) :
    (LikeJoke c js).2 = js.map (likeOne id) := by
  simp only [LikeJoke, h]
  exact likeLoop_eq_map id js

theorem LikeJoke_response (c : Context) (js : List Joke) (id : Int)
    (h : Atoi (c.Param "jokeID") = some id) (hw : c.Writer = ResponseWriter.fresh) :
    (LikeJoke c js).1.Writer.wire = some 200 ∧
    (LikeJoke c js).1.Writer.body = [Chunk.json (LikeJoke c js).2] := by
  simp only [LikeJoke, h, Context.JSON, hw]
  constructor <;> rfl

theorem likeAll_eq (id : Int) (cs : List Context) :
    ∀ js : List Joke,
      (∀ c ∈ cs, Atoi (c.Param "jokeID") = some id) →
      (∀ j ∈ js, j.ID = id → minInt ≤ j.Likes ∧ j.Likes + (cs.length : Int) ≤ maxInt) →
      likeAll cs js
        = js.map (fun j => if j.ID = id then { j with Likes := j.Likes + (cs.length : Int) } else j) := by
  induction cs with
  | nil =>
    intro js _ _
    simp only [likeAll, List.foldl_nil, List.length_nil, Nat.cast_zero, add_zero]
    conv_lhs => rw [← List.map_id js]
    apply List.map_congr_left
    intro j _
    split <;> rfl
  | cons c cs ih =>
    intro js hid hr
    have hc : Atoi (c.Param "jokeID") = some id := hid c (List.mem_cons_self _ _)
    have hcs : ∀ c' ∈ cs, Atoi (c'.Param "jokeID") = some id :=
      fun c' hc' => hid c' (List.mem_cons_of_mem _ hc')
    have step : likeAll (c :: cs) js = likeAll cs (js.map (likeOne id)) := by
      simp only [likeAll, List.foldl_cons]
      rw [LikeJoke_state c js id hc]
    rw [step, ih _ hcs]
    · rw [List.map_map]
      apply List.map_congr_left
      intro j hj
      simp only [Function.comp, likeOne]
      by_cases hji : j.ID = id
      · obtain ⟨h1, h2⟩ := hr j hj hji
        simp only [List.length_cons, Nat.cast_add, Nat.cast_one] at h2
        have hw : wrapInt (j.Likes + 1) = j.Likes + 1 := by
          apply wrapInt_id
          · omega
          · have : (0 : Int) ≤ (cs.length : Int) := Int.ofNat_nonneg _
            omega
        simp only [hji, if_true, hw, List.length_cons, Nat.cast_add, Nat.cast_one]
        congr 1
        omega
      · simp [hji]
    · intro j' hj' hid'
      obtain ⟨j, hj, rfl⟩ := List.mem_map.mp hj'
      have hji : j.ID = id := by
        unfold likeOne at hid'
        split at hid' <;> simpa using hid'
      obtain ⟨h1, h2⟩ := hr j hj hji
      simp only [List.length_cons, Nat.cast_add, Nat.cast_one] at h2
      have hnn : (0 : Int) ≤ (cs.length : Int) := Int.ofNat_nonneg _
      have hw : wrapInt (j.Likes + 1) = j.Likes + 1 := by
        apply wrapInt_id <;> omega
      simp only [likeOne, hji, if_true, hw]
      constructor <;> omega

theorem map_ID_likeOne (id : Int) (js : List Joke) :
    (js.map (likeOne id)).map Joke.ID = js.map Joke.ID := by
  rw [List.map_map]
  apply List.map_congr_left
  intro j _
  simp only [Function.comp, likeOne]
  split <;> rfl

theorem map_Joke_likeOne (id : Int) (js : List Joke) :
    (js.map (likeOne id)).map Joke.Joke = js.map Joke.Joke := by
  rw [List.map_map]
  apply List.map_congr_left
  intro j _
  simp only [Function.comp, likeOne]
  split <;> rfl

theorem LikeJoke_no_parse (c : Context) (js : List Joke)
    (h : Atoi (c.Param "jokeID") = none) :
    LikeJoke c js = (c.AbortWithStatus 404, js) := by
  simp only [LikeJoke, h]

theorem likeOne_of_ne (id : Int) (js : List Joke) (h : ∀ j ∈ js, j.ID ≠ id) :
    js.map (likeOne id) = js := by
  conv_rhs => rw [← List.map_id js]
  apply List.map_congr_left
  intro j hj
  simp [likeOne, h j hj]

/-! ## Every integer is the value of some path parameter -/

theorem digitVal_ofNat (d : Nat) (h : d < 10) : digitVal (Char.ofNat (48 + d)) = some d := by
  interval_cases d <;> rfl

theorem atoiDigits_snoc (xs : List Char) (c : Char) :
    ∀ acc, atoiDigits acc (xs ++ [c])
      = (atoiDigits acc xs).bind (fun m => (digitVal c).map (fun d => m * 10 + d)) := by
  induction xs with
  | nil =>
    intro acc
    simp only [List.nil_append, atoiDigits, Option.some_bind]
    cases digitVal c <;> rfl
  | cons x xs ih =>
    intro acc
    simp only [List.cons_append, atoiDigits]
    cases digitVal x with
    | none => rfl
    | some d => exact ih _

theorem atoiDigits_decDigits (fuel : Nat) :
    ∀ n, n ≤ fuel → atoiDigits 0 (decDigits (fuel + 1) n) = some n := by
  induction fuel with
  | zero =>
    intro n hn
    have : n = 0 := by omega
    subst this
    rfl
  | succ f ih =>
    intro n hn
    rw [decDigits]
    by_cases h : n < 10
    · rw [if_pos h]
      simp only [atoiDigits, digitVal_ofNat n h]
      simp
    · rw [if_neg h, atoiDigits_snoc, ih (n / 10) (by omega),
        digitVal_ofNat (n % 10) (Nat.mod_lt _ (by decide))]
      simp only [Option.some_bind, Option.map_some', Option.some.injEq]
      omega

theorem decDigits_ne_nil (fuel n : Nat) : decDigits fuel n ≠ [] := by
  cases fuel with
  | zero => simp [decDigits]
  | succ f =>
    rw [decDigits]
    split <;> simp

theorem Atoi_minus (ds : List Char) (n : Nat) (hne : ds ≠ [])
    (hd : atoiDigits 0 ds = some n) :
    Atoi (String.mk ('-' :: ds))
      = if minInt ≤ -(n : Int) ∧ -(n : Int) ≤ maxInt then some (-(n : Int)) else none := by
  cases ds with
  | nil => exact absurd rfl hne
  | cons x xs => simp [Atoi, hd]

theorem Atoi_plus (ds : List Char) (n : Nat) (hne : ds ≠ [])
    (hd : atoiDigits 0 ds = some n) :
    Atoi (String.mk ('+' :: ds))
      = if minInt ≤ (n : Int) ∧ (n : Int) ≤ maxInt then some (n : Int) else none := by
  cases ds with
  | nil => exact absurd rfl hne
  | cons x xs => simp [Atoi, hd]

theorem Atoi_signedDecimal (id : Int) (h1 : minInt ≤ id) (h2 : id ≤ maxInt) :
    Atoi (signedDecimal id) = some id := by
  have hd := atoiDigits_decDigits id.natAbs id.natAbs (le_refl _)
  have hne := decDigits_ne_nil (id.natAbs + 1) id.natAbs
  by_cases hneg : id < 0
  · have hv : -((id.natAbs : Nat) : Int) = id := by omega
    rw [signedDecimal, if_pos hneg, Atoi_minus _ _ hne hd, hv, if_pos ⟨h1, h2⟩]
  · have hv : ((id.natAbs : Nat) : Int) = id := by omega
    rw [signedDecimal, if_neg hneg, Atoi_plus _ _ hne hd, hv, if_pos ⟨h1, h2⟩]

theorem likeContext_Param (p : String) : (likeContext p).Param "jokeID" = p := by
  simp [likeContext, Context.Param, List.lookup]

/-! ## The like handler -/

/-- C1. For every joke list, every integer id and every sequence of N like requests whose path
parameter parses to that id, with no counter overflow, running `LikeJoke` on the requests in
turn yields the list in which every joke whose ID equals id has Likes increased by exactly N and
everything else (length, order, IDs, texts, other counters) is unchanged; each request that
arrives with nothing written is answered with status 200 and the resulting list as body; and
every id in the range of `int` is the value of some path parameter. -/
theorem LikeJoke_repeated (js : List Joke) (id : Int) (cs : List Context)
    (hid : ∀ c ∈ cs, Atoi (c.Param "jokeID") = some id)
    (hrange : ∀ j ∈ js, j.ID = id → minInt ≤ j.Likes ∧ j.Likes + (cs.length : Int) ≤ maxInt) :
    likeAll cs js
        = js.map (fun j => if j.ID = id then { j with Likes := j.Likes + (cs.length : Int) } else j)
      ∧ (likeAll cs js).length = js.length
      ∧ (likeAll cs js).map Joke.ID = js.map Joke.ID
      ∧ (likeAll cs js).map Joke.Joke = js.map Joke.Joke
      ∧ (∀ c ∈ cs, ∀ js0 : List Joke, c.Writer = ResponseWriter.fresh →
          (LikeJoke c js0).1.Writer.wire = some 200 ∧
          (LikeJoke c js0).1.Writer.body = [Chunk.json (LikeJoke c js0).2])
      ∧ (minInt ≤ id → id ≤ maxInt →
          Atoi ((likeContext (signedDecimal id)).Param "jokeID") = some id) := by
  have main := likeAll_eq id cs js hid hrange
  refine ⟨main, ?_, ?_, ?_, ?_, ?_⟩
  rotate_right
  · intro h1 h2
    rw [likeContext_Param]
    exact Atoi_signedDecimal id h1 h2
  · rw [main, List.length_map]
  · rw [main, List.map_map]
    apply List.map_congr_left
    intro j _
    simp only [Function.comp]
    split <;> rfl
  · rw [main, List.map_map]
    apply List.map_congr_left
    intro j _
    simp only [Function.comp]
    split <;> rfl
  · intro c hc js0 hw
    exact LikeJoke_response c js0 id (hid c hc) hw

/-- Witness for C1: three like requests for joke 3 on the startup list. -/
theorem LikeJoke_repeated_witness :
    likeAll [likeContext "3", likeContext "+3", likeContext "003"] jokes
      = jokes.map (fun j => if j.ID = 3 then { j with Likes := j.Likes + 3 } else j) :=
  (LikeJoke_repeated jokes 3 [likeContext "3", likeContext "+3", likeContext "003"]
    (by decide) (by decide)).1

/-- C2, as stated, fails: on the startup list the id 999 equals no joke's ID, and `LikeJoke`
answers with status 200 and the joke list, not with 404. -/
theorem LikeJoke_unknown_id_not_404 :
    Atoi ((likeContext "999").Param "jokeID") = some 999
      ∧ (∀ j ∈ jokes, j.ID ≠ 999)
      ∧ (LikeJoke (likeContext "999") jokes).1.Writer.wire = some 200
      ∧ (LikeJoke (likeContext "999") jokes).1.Writer.wire ≠ some 404
      ∧ (LikeJoke (likeContext "999") jokes).1.Writer.body = [Chunk.json jokes] := by
  decide

/-- C2, amended. For every joke list and every integer id that equals no joke's ID, `LikeJoke`
on a request with nothing written responds with status 200 and the unchanged joke list, and
does not abort; it responds with status 404 exactly when the path parameter is not an integer. -/
theorem LikeJoke_unknown_id (c : Context) (js : List Joke) (id : Int)
    (hw : c.Writer = ResponseWriter.fresh)
    (hid : Atoi (c.Param "jokeID") = some id)
    (hno : ∀ j ∈ js, j.ID ≠ id) :
    (LikeJoke c js).2 = js
      ∧ (LikeJoke c js).1.Writer.wire = some 200
      ∧ (LikeJoke c js).1.Writer.body = [Chunk.json js]
      ∧ (LikeJoke c js).1.IsAborted = c.IsAborted
      ∧ ∀ (c1 : Context) (js1 : List Joke), c1.Writer = ResponseWriter.fresh →
          ((LikeJoke c1 js1).1.Writer.wire = some 404 ↔ Atoi (c1.Param "jokeID") = none) := by
  have hs : (LikeJoke c js).2 = js := by
    rw [LikeJoke_state c js id hid, likeOne_of_ne id js hno]
  have hr := LikeJoke_response c js id hid hw
  refine ⟨hs, hr.1, ?_, ?_, ?_⟩
  · rw [hr.2, hs]
  · simp only [LikeJoke, hid, Context.JSON, Context.IsAborted]
  · intro c1 js1 hw1
    cases h : Atoi (c1.Param "jokeID") with
    | none =>
      rw [LikeJoke_no_parse c1 js1 h]
      simp only [Context.AbortWithStatus, Context.Abort, hw1]
      constructor
      · intro _; trivial
      · intro _; rfl
    | some id1 =>
      have := (LikeJoke_response c1 js1 id1 h hw1).1
      rw [this]
      simp

/-- Witness for C2 (amended): id 999 on the startup list. -/
theorem LikeJoke_unknown_id_witness :
    (LikeJoke (likeContext "999") jokes).2 = jokes
      ∧ (LikeJoke (likeContext "999") jokes).1.Writer.wire = some 200 :=
  ⟨(LikeJoke_unknown_id (likeContext "999") jokes 999 rfl (by decide) (by decide)).1,
   (LikeJoke_unknown_id (likeContext "999") jokes 999 rfl (by decide) (by decide)).2.1⟩

theorem LikeJoke_preserves (c : Context) (js : List Joke) :
    ((LikeJoke c js).2).map Joke.ID = js.map Joke.ID
      ∧ ((LikeJoke c js).2).map Joke.Joke = js.map Joke.Joke := by
  cases h : Atoi (c.Param "jokeID") with
  | none => rw [LikeJoke_no_parse c js h]; exact ⟨rfl, rfl⟩
  | some id =>
    rw [LikeJoke_state c js id h]
    exact ⟨map_ID_likeOne id js, map_Joke_likeOne id js⟩

theorem authMiddleware_jokes (check : CheckJWT) (c : Context) (js : List Joke) :
    (authMiddleware check c js).2 = js := by
  simp only [authMiddleware]
  cases (check c.Writer c.Request).2 <;> rfl

theorem Reachable_fields (js : List Joke) (h : Reachable js) :
    js.map Joke.ID = jokes.map Joke.ID ∧ js.map Joke.Joke = jokes.map Joke.Joke := by
  induction h with
  | startup => exact ⟨rfl, rfl⟩
  | afterJokeHandler c _ ih => exact ih
  | afterLikeJoke c _ ih =>
    obtain ⟨h1, h2⟩ := LikeJoke_preserves c _
    exact ⟨h1.trans ih.1, h2.trans ih.2⟩
  | afterAuth check c _ ih =>
    rw [authMiddleware_jokes]
    exact ih

/-- C9. In every reachable state of the joke list the identifiers are pairwise distinct: the
IDs are 1..7 in the startup order, the length is 7 and the texts are the startup texts; and
every handler (`JokeHandler`, `LikeJoke` with any path parameter) preserves the IDs and texts
of any list, hence its length and order. -/
theorem joke_ids_unique (js : List Joke) (h : Reachable js) :
    (js.map Joke.ID).Nodup
      ∧ js.map Joke.ID = [1, 2, 3, 4, 5, 6, 7]
      ∧ js.length = 7
      ∧ js.map Joke.Joke = jokes.map Joke.Joke
      ∧ (∀ (c : Context) (l : List Joke),
          ((JokeHandler c l).2 = l) ∧
          ((LikeJoke c l).2).map Joke.ID = l.map Joke.ID ∧
          ((LikeJoke c l).2).map Joke.Joke = l.map Joke.Joke ∧
          ((LikeJoke c l).2).length = l.length) := by
  obtain ⟨h1, h2⟩ := Reachable_fields js h
  have hids : js.map Joke.ID = [1, 2, 3, 4, 5, 6, 7] := by rw [h1]; rfl
  refine ⟨?_, hids, ?_, h2, ?_⟩
  · rw [hids]; decide
  · have := congrArg List.length hids
    simpa using this
  · intro c l
    obtain ⟨p1, p2⟩ := LikeJoke_preserves c l
    refine ⟨rfl, p1, p2, ?_⟩
    have := congrArg List.length p1
    simpa using this

/-- Witness for C9: the list reached by a like of joke 3 followed by a listing. -/
theorem joke_ids_unique_witness :
    ((JokeHandler (likeContext "") (LikeJoke (likeContext "3") jokes).2).2.map Joke.ID).Nodup :=
  (joke_ids_unique _
    (Reachable.afterJokeHandler (likeContext "")
      (Reachable.afterLikeJoke (likeContext "3") Reachable.startup))).1

theorem Write_WriteHeaderNow (w : ResponseWriter) (d : Chunk) :
    (w.Write d).WriteHeaderNow = w.Write d := by
  cases h : w.wire <;> simp [ResponseWriter.Write, ResponseWriter.WriteHeaderNow, h]

theorem Write_body (w : ResponseWriter) (d : Chunk) : (w.Write d).body = w.body ++ [d] := by
  cases h : w.wire <;> simp [ResponseWriter.Write, ResponseWriter.WriteHeaderNow, h]

theorem WriteHeader_body (w : ResponseWriter) (code : Nat) : (w.WriteHeader code).body = w.body := by
  unfold ResponseWriter.WriteHeader
  split <;> rfl

theorem WriteHeader_wire (w : ResponseWriter) (code : Nat) : (w.WriteHeader code).wire = w.wire := by
  unfold ResponseWriter.WriteHeader
  split <;> rfl

theorem WriteHeader_status (w : ResponseWriter) (code : Nat) (h : 0 < code) :
    (w.WriteHeader code).status = code := by
  unfold ResponseWriter.WriteHeader
  by_cases hs : w.status = code
  · simp [hs]
  · simp [hs, h]

theorem Write_wire_of_none (w : ResponseWriter) (d : Chunk) (h : w.wire = none) :
    (w.Write d).wire = some w.status := by
  simp [ResponseWriter.Write, ResponseWriter.WriteHeaderNow, h]

theorem authMiddleware_err (check : CheckJWT) (c : Context) (js : List Joke)
    (h : (check c.Writer c.Request).2 ≠ none) :
    authMiddleware check c js
      = (⟨c.Request, c.Params,
          ((check c.Writer c.Request).1.WriteHeader 401).Write (Chunk.text "Unauthorized"),
          abortIndex⟩, js) := by
  simp only [authMiddleware]
  cases hc : (check c.Writer c.Request).2 with
  | none => exact absurd hc h
  | some e => rfl

theorem serve_rejected (check : CheckJWT) (handler : HandlerFunc) (req : Request)
    (params : List (String × String)) (js : List Joke) (fuel : Nat) (hf : 2 ≤ fuel)
    (herr : (check ResponseWriter.fresh req).2 ≠ none) :
    serve (protectedRoute check handler) fuel req params js
      = some (⟨req, params,
          ((check ResponseWriter.fresh req).1.WriteHeader 401).Write (Chunk.text "Unauthorized"),
          abortIndex + 1⟩, js) := by
  obtain ⟨n, rfl⟩ : ∃ n, fuel = n + 2 := ⟨fuel - 2, by omega⟩
  simp only [serve, Context.Next, protectedRoute]
  have e0 : ((-1 : Int) + 1) = 0 := by decide
  rw [e0]
  rw [nextLoop]
  have hlt : (0 : Int) < (([authMiddleware check, handler] : List HandlerFunc).length : Int) := by
    simp
  simp only [hlt, if_true, lt_irrefl, if_false, Int.toNat_zero, List.get?_cons_zero]
  rw [authMiddleware_err check _ js herr]
  simp only []
  rw [nextLoop]
  have hge : ¬ (abortIndex + 1 < (([authMiddleware check, handler] : List HandlerFunc).length : Int)) := by
    simp [abortIndex]
  simp only [hge, if_false, Write_WriteHeaderNow]

/-- C8, as stated, fails: on `GET /api/jokes` without a token the token check of the middleware
library (default error handler) has already written its error text when it returns the error,
so the response body is not "Unauthorized" alone. -/
theorem authMiddleware_body_not_only_unauthorized :
    (checkTokenMissing ResponseWriter.fresh ⟨"GET", "/api/jokes", []⟩).2 ≠ none
      ∧ (serve (protectedRoute checkTokenMissing JokeHandler) 2 ⟨"GET", "/api/jokes", []⟩ [] jokes).map
          (fun r => r.1.Writer.body)
        = some [Chunk.text "Required authorization token not found\n", Chunk.text "Unauthorized"]
      ∧ (serve (protectedRoute checkTokenMissing JokeHandler) 2 ⟨"GET", "/api/jokes", []⟩ [] jokes).map
          (fun r => r.1.Writer.body)
        ≠ some [Chunk.text "Unauthorized"] := by
  decide

theorem Write_status (w : ResponseWriter) (d : Chunk) : (w.Write d).status = w.status := by
  cases h : w.wire <;> simp [ResponseWriter.Write, ResponseWriter.WriteHeaderNow, h]

theorem Write_wire (w : ResponseWriter) (d : Chunk) :
    (w.Write d).wire = some (w.wire.getD w.status) := by
  cases h : w.wire <;> simp [ResponseWriter.Write, ResponseWriter.WriteHeaderNow, h]

theorem OnError_fresh (msg : String) :
    OnError ResponseWriter.fresh msg
      = ⟨401, some 401,
          [("X-Content-Type-Options", "nosniff"), ("Content-Type", "text/plain; charset=utf-8")],
          [Chunk.text (msg ++ "\n")]⟩ := by
  rfl

/-- C8, amended. For every request to a protected route (GET /api/jokes,
POST /api/jokes/like/:jokeID) for which the token check returns an error, `authMiddleware`
aborts the handler chain, so the downstream handler does not run and the joke list (every Likes
counter) is left unchanged; it sets the status code 401 and appends "Unauthorized" to whatever
the token check has itself written to the response. The status sent is the one the check has
already sent, and 401 otherwise; so it is 401 when the check sent nothing or sent 401. With the
default error handler of the middleware, which `main` leaves in place, the response is status
401 with the error text of the check followed by "Unauthorized"; it is exactly status 401 with
body "Unauthorized" when the token check wrote nothing. -/
theorem authMiddleware_rejects (check : CheckJWT) (handler : HandlerFunc) (req : Request)
    (params : List (String × String)) (js : List Joke) (fuel : Nat) (hf : 2 ≤ fuel)
    (herr : (check ResponseWriter.fresh req).2 ≠ none) :
    ∃ c : Context,
      serve (protectedRoute check handler) fuel req params js = some (c, js)
        ∧ c.IsAborted = true
        ∧ (∀ other : HandlerFunc,
            serve (protectedRoute check other) fuel req params js = some (c, js))
        ∧ c.Writer.body = (check ResponseWriter.fresh req).1.body ++ [Chunk.text "Unauthorized"]
        ∧ ((check ResponseWriter.fresh req).1.wire = none → c.Writer.wire = some 401)
        ∧ ((check ResponseWriter.fresh req).1 = ResponseWriter.fresh →
            c.Writer = ⟨401, some 401, [], [Chunk.text "Unauthorized"]⟩)
        ∧ c.Writer.status = 401
        ∧ c.Writer.wire = some ((check ResponseWriter.fresh req).1.wire.getD 401)
        ∧ ((check ResponseWriter.fresh req).1.wire = some 401 → c.Writer.wire = some 401)
        ∧ (∀ msg : String, (check ResponseWriter.fresh req).1 = OnError ResponseWriter.fresh msg →
            c.Writer.status = 401 ∧ c.Writer.wire = some 401 ∧
            c.Writer.body = [Chunk.text (msg ++ "\n"), Chunk.text "Unauthorized"]) := by
  have hstatus : (((check ResponseWriter.fresh req).1.WriteHeader 401).Write
      (Chunk.text "Unauthorized")).status = 401 := by
    rw [Write_status, WriteHeader_status _ _ (by decide)]
  have hwire : (((check ResponseWriter.fresh req).1.WriteHeader 401).Write
      (Chunk.text "Unauthorized")).wire
        = some ((check ResponseWriter.fresh req).1.wire.getD 401) := by
    rw [Write_wire, WriteHeader_wire, WriteHeader_status _ _ (by decide)]
  have hbody : (((check ResponseWriter.fresh req).1.WriteHeader 401).Write
      (Chunk.text "Unauthorized")).body
        = (check ResponseWriter.fresh req).1.body ++ [Chunk.text "Unauthorized"] := by
    simp only [Write_body, WriteHeader_body]
  refine ⟨_, serve_rejected check handler req params js fuel hf herr, rfl,
    fun other => serve_rejected check other req params js fuel hf herr, hbody, ?_, ?_,
    hstatus, hwire, ?_, ?_⟩
  · intro hw
    rw [hwire, hw]
    rfl
  · intro hfresh
    rw [hfresh]
    rfl
  · intro hw
    rw [hwire, hw]
    rfl
  · intro msg hmsg
    refine ⟨hstatus, ?_, ?_⟩
    · rw [hwire, hmsg, OnError_fresh]
      rfl
    · rw [hbody, hmsg, OnError_fresh]
      rfl

/-- Witness for C8 (amended): `GET /api/jokes` without a token, rejected by the token check
with the default error handler, is answered with status 401 and the body made of the error text
of the check followed by "Unauthorized"; the handler does not run and the jokes are untouched. -/
theorem authMiddleware_rejects_witness :
    ∃ c : Context,
      serve (protectedRoute checkTokenMissing JokeHandler) 2 ⟨"GET", "/api/jokes", []⟩ [] jokes
          = some (c, jokes)
        ∧ c.IsAborted = true
        ∧ c.Writer.status = 401
        ∧ c.Writer.wire = some 401
        ∧ c.Writer.body
          = [Chunk.text ("Required authorization token not found" ++ "\n"),
              Chunk.text "Unauthorized"] := by
  obtain ⟨c, h1, h2, _, _, _, _, _, _, _, h10⟩ :=
    authMiddleware_rejects checkTokenMissing JokeHandler ⟨"GET", "/api/jokes", []⟩ [] jokes 2
      (le_refl 2) (by decide)
  exact ⟨c, h1, h2, h10 "Required authorization token not found" rfl⟩

theorem pemWrap_ne_empty (v : String) : pemWrap v ≠ "" := by
  intro h
  have := congrArg String.length h
  simp only [pemWrap, String.length_append] at this
  have hpos : 0 < "-----BEGIN CERTIFICATE-----\n".length := by decide
  have h0 : "".length = 0 := rfl
  omega

theorem certLoop_spec (kid : Option Value) (keys : List JSONWebKeys) :
    ∀ (rest : List String) (k : Nat) (cert : String), k + rest.length ≤ keys.length →
      ∃ c, certLoop kid keys k rest cert = some c
        ∧ ((∀ i key, i < rest.length → keys.get? (k + i) = some key →
              kid ≠ some (Value.str key.Kid)) → c = cert)
        ∧ ((∃ i key, i < rest.length ∧ keys.get? (k + i) = some key ∧
              kid = some (Value.str key.Kid)) → ∃ v, c = pemWrap v)
        ∧ (∀ i key v, keys.get? (k + i) = some key → rest.get? i = some v →
              kid = some (Value.str key.Kid) →
              (∀ i2 key2, i < i2 → i2 < rest.length → keys.get? (k + i2) = some key2 →
                kid ≠ some (Value.str key2.Kid)) → c = pemWrap v) := by
  intro rest
  induction rest with
  | nil =>
    intro k cert _
    refine ⟨cert, rfl, fun _ => rfl, ?_, ?_⟩
    · rintro ⟨i, key, hi, _⟩
      simp at hi
    · intro i key v _ hv
      simp at hv
  | cons v0 rest ih =>
    intro k cert hk
    simp only [List.length_cons] at hk
    have hklt : k < keys.length := by omega
    obtain ⟨key0, hkey0⟩ : ∃ key0, keys.get? k = some key0 :=
      ⟨keys.get ⟨k, hklt⟩, List.get?_eq_get hklt⟩
    have hk1 : (k + 1) + rest.length ≤ keys.length := by omega
    have shift : ∀ i, k + (i + 1) = (k + 1) + i := by intro i; omega
    by_cases hm : kid = some (Value.str key0.Kid)
    · obtain ⟨c, hc, hnone, hsome, hlast⟩ := ih (k + 1) (pemWrap v0) hk1
      refine ⟨c, ?_, ?_, ?_, ?_⟩
      · rw [certLoop, hkey0]
        simp only [hm, if_true]
        rw [← hm]; exact hc
      · intro hall
        exact absurd hm (hall 0 key0 (by simp) (by simpa using hkey0))
      · intro _
        by_cases hex : ∃ i key, i < rest.length ∧ keys.get? (k + 1 + i) = some key ∧
            kid = some (Value.str key.Kid)
        · exact hsome hex
        · refine ⟨v0, hnone ?_⟩
          intro i key hi hget hkid
          exact hex ⟨i, key, hi, hget, hkid⟩
      · intro i key v hget hv hkid hlater
        cases i with
        | zero =>
          simp only [List.get?_cons_zero, Option.some.injEq] at hv
          subst hv
          apply hnone
          intro i key2 hi hget2
          exact hlater (i + 1) key2 (by omega) (by simp; omega) (by rw [shift]; exact hget2)
        | succ i =>
          simp only [List.get?_cons_succ] at hv
          rw [shift] at hget
          apply hlast i key v hget hv hkid
          intro i2 key2 h1 h2 hget2
          exact hlater (i2 + 1) key2 (by omega) (by simp; omega) (by rw [shift]; exact hget2)
    · obtain ⟨c, hc, hnone, hsome, hlast⟩ := ih (k + 1) cert hk1
      refine ⟨c, ?_, ?_, ?_, ?_⟩
      · rw [certLoop, hkey0]
        simp only [hm, if_false]
        exact hc
      · intro hall
        apply hnone
        intro i key hi hget
        exact hall (i + 1) key (by simp; omega) (by rw [shift]; exact hget)
      · rintro ⟨i, key, hi, hget, hkid⟩
        cases i with
        | zero =>
          simp only [Nat.add_zero] at hget
          rw [hkey0] at hget
          cases hget
          exact absurd hkid hm
        | succ i =>
          rw [shift] at hget
          exact hsome ⟨i, key, by simpa using hi, hget, hkid⟩
      · intro i key v hget hv hkid hlater
        cases i with
        | zero =>
          simp only [Nat.add_zero] at hget
          rw [hkey0] at hget
          cases hget
          exact absurd hkid hm
        | succ i =>
          simp only [List.get?_cons_succ] at hv
          rw [shift] at hget
          apply hlast i key v hget hv hkid
          intro i2 key2 h1 h2 hget2
          exact hlater (i2 + 1) key2 (by omega) (by simp; omega) (by rw [shift]; exact hget2)

theorem getPemCert_decoded (fetch : String → FetchResult) (env : Env) (token : Token)
    (jwks : Jwks) (key0 : JSONWebKeys) (c : String)
    (hfetch : fetch (env.AUTH0_DOMAIN ++ ".well-known/jwks.json") = FetchResult.decoded jwks)
    (hkey0 : jwks.Keys.get? 0 = some key0)
    (hc : certLoop (token.Header.lookup "kid") jwks.Keys 0 key0.X5c "" = some c) :
    getPemCert fetch env token
      = if c = "" then
          ⟨[env.AUTH0_DOMAIN ++ ".well-known/jwks.json"],
            Exec.ret c (some "unable to find appropriate key.")⟩
        else ⟨[env.AUTH0_DOMAIN ++ ".well-known/jwks.json"], Exec.ret c none⟩ := by
  simp only [getPemCert, hfetch, hkey0, hc]

theorem getPemCert_selects (fetch : String → FetchResult) (env : Env) (token : Token)
    (jwks : Jwks) (key0 : JSONWebKeys)
    (hfetch : fetch (env.AUTH0_DOMAIN ++ ".well-known/jwks.json") = FetchResult.decoded jwks)
    (hkey0 : jwks.Keys.get? 0 = some key0)
    (hlen : key0.X5c.length ≤ jwks.Keys.length) :
    (∃ cert err, getPemCert fetch env token
        = ⟨[env.AUTH0_DOMAIN ++ ".well-known/jwks.json"], Exec.ret cert err⟩)
      ∧ (∀ k key v, jwks.Keys.get? k = some key → key0.X5c.get? k = some v →
          token.Header.lookup "kid" = some (Value.str key.Kid) →
          (∀ k2 key2, k < k2 → k2 < key0.X5c.length → jwks.Keys.get? k2 = some key2 →
            token.Header.lookup "kid" ≠ some (Value.str key2.Kid)) →
          getPemCert fetch env token
            = ⟨[env.AUTH0_DOMAIN ++ ".well-known/jwks.json"], Exec.ret (pemWrap v) none⟩)
      ∧ (getPemCert fetch env token
            = ⟨[env.AUTH0_DOMAIN ++ ".well-known/jwks.json"],
                Exec.ret "" (some "unable to find appropriate key.")⟩
          ↔ ∀ k key, k < key0.X5c.length → jwks.Keys.get? k = some key →
              token.Header.lookup "kid" ≠ some (Value.str key.Kid))
      ∧ ((∃ k key, k < key0.X5c.length ∧ jwks.Keys.get? k = some key ∧
            token.Header.lookup "kid" = some (Value.str key.Kid)) →
          ∃ v, getPemCert fetch env token
            = ⟨[env.AUTH0_DOMAIN ++ ".well-known/jwks.json"], Exec.ret (pemWrap v) none⟩) := by
  obtain ⟨c, hc, hnone, hsome, hlast⟩ :=
    certLoop_spec (token.Header.lookup "kid") jwks.Keys key0.X5c 0 "" (by omega)
  simp only [Nat.zero_add] at hnone hsome hlast
  have hg := getPemCert_decoded fetch env token jwks key0 c hfetch hkey0 hc
  have hexists : (∃ k key, k < key0.X5c.length ∧ jwks.Keys.get? k = some key ∧
        token.Header.lookup "kid" = some (Value.str key.Kid)) →
      ∃ v, getPemCert fetch env token
        = ⟨[env.AUTH0_DOMAIN ++ ".well-known/jwks.json"], Exec.ret (pemWrap v) none⟩ := by
    intro hex
    obtain ⟨v, hv⟩ := hsome hex
    refine ⟨v, ?_⟩
    rw [hg, hv, if_neg (pemWrap_ne_empty v)]
  refine ⟨?_, ?_, ?_, hexists⟩
  · rw [hg]
    split
    · exact ⟨_, _, rfl⟩
    · exact ⟨_, _, rfl⟩
  · intro k key v hget hv hkid hlater
    have := hlast k key v hget hv hkid hlater
    rw [hg, this, if_neg (pemWrap_ne_empty v)]
  · constructor
    · intro hres k key hk hget hkid
      obtain ⟨v, hv⟩ := hexists ⟨k, key, hk, hget, hkid⟩
      rw [hres] at hv
      have hout := congrArg Run.out hv
      simp only [Exec.ret.injEq] at hout
      exact absurd hout.2 (by simp)
    · intro hall
      have := hnone hall
      rw [hg, this, if_pos rfl]

theorem lastMatch_exists (kid : Option Value) (keys : List JSONWebKeys) (x5c : List String)
    (hlen : x5c.length ≤ keys.length)
    (hex : ∃ k key, k < x5c.length ∧ keys.get? k = some key ∧ kid = some (Value.str key.Kid)) :
    ∃ k key v, k < x5c.length ∧ keys.get? k = some key ∧ x5c.get? k = some v ∧
      kid = some (Value.str key.Kid) ∧
      (∀ k2 key2, k < k2 → k2 < x5c.length → keys.get? k2 = some key2 →
        kid ≠ some (Value.str key2.Kid)) := by
  have key : ∀ n, n ≤ x5c.length →
      (∃ k key, k < n ∧ keys.get? k = some key ∧ kid = some (Value.str key.Kid)) →
      ∃ k key, k < n ∧ keys.get? k = some key ∧ kid = some (Value.str key.Kid) ∧
        (∀ k2 key2, k < k2 → k2 < n → keys.get? k2 = some key2 →
          kid ≠ some (Value.str key2.Kid)) := by
    intro n
    induction n with
    | zero =>
      rintro _ ⟨k, _, hk, _⟩
      omega
    | succ n ih =>
      intro hn hex
      have hnk : n < keys.length := by omega
      by_cases hm : kid = some (Value.str (keys.get ⟨n, hnk⟩).Kid)
      · refine ⟨n, keys.get ⟨n, hnk⟩, by omega, List.get?_eq_get hnk, hm, ?_⟩
        intro k2 key2 h1 h2
        omega
      · obtain ⟨k, key, hk, hget, hkid⟩ := hex
        have hkn : k ≠ n := by
          intro h
          subst h
          rw [List.get?_eq_get hnk] at hget
          cases hget
          exact hm hkid
        obtain ⟨k1, key1, hk1, hget1, hkid1, hl1⟩ :=
          ih (by omega) ⟨k, key, by omega, hget, hkid⟩
        refine ⟨k1, key1, by omega, hget1, hkid1, ?_⟩
        intro k2 key2 h1 h2 hget2
        by_cases h2n : k2 = n
        · subst h2n
          rw [List.get?_eq_get hnk] at hget2
          cases hget2
          exact hm
        · exact hl1 k2 key2 h1 (by omega) hget2
  obtain ⟨k, key, hk, hget, hkid, hl⟩ := key x5c.length (le_refl _) hex
  exact ⟨k, key, x5c.get ⟨k, hk⟩, hk, hget, List.get?_eq_get hk, hkid, hl⟩

/-- C10. For every decoded key set with at least one record and with
`len(Keys[0].X5c) <= len(Keys)`, and every token key id, `getPemCert` performs no out-of-range
access (it returns), it returns
`"-----BEGIN CERTIFICATE-----\n" + Keys[0].X5c[k] + "\n-----END CERTIFICATE-----"` for the
largest index `k < len(Keys[0].X5c)` with `Keys[k].Kid` equal to the token's key id, and it
returns the error "unable to find appropriate key." exactly when no such `k` exists. -/
theorem getPemCert_behaviour (fetch : String → FetchResult) (env : Env) (token : Token)
    (jwks : Jwks) (key0 : JSONWebKeys)
    (hfetch : fetch (env.AUTH0_DOMAIN ++ ".well-known/jwks.json") = FetchResult.decoded jwks)
    (hkey0 : jwks.Keys.get? 0 = some key0)
    (hlen : key0.X5c.length ≤ jwks.Keys.length) :
    (∃ cert err, getPemCert fetch env token
        = ⟨[env.AUTH0_DOMAIN ++ ".well-known/jwks.json"], Exec.ret cert err⟩)
      ∧ (∀ k key v, jwks.Keys.get? k = some key → key0.X5c.get? k = some v →
          token.Header.lookup "kid" = some (Value.str key.Kid) →
          (∀ k2 key2, k < k2 → k2 < key0.X5c.length → jwks.Keys.get? k2 = some key2 →
            token.Header.lookup "kid" ≠ some (Value.str key2.Kid)) →
          getPemCert fetch env token
            = ⟨[env.AUTH0_DOMAIN ++ ".well-known/jwks.json"],
                Exec.ret ("-----BEGIN CERTIFICATE-----\n" ++ v ++ "\n-----END CERTIFICATE-----")
                  none⟩)
      ∧ (getPemCert fetch env token
            = ⟨[env.AUTH0_DOMAIN ++ ".well-known/jwks.json"],
                Exec.ret "" (some "unable to find appropriate key.")⟩
          ↔ ∀ k key, k < key0.X5c.length → jwks.Keys.get? k = some key →
              token.Header.lookup "kid" ≠ some (Value.str key.Kid))
      ∧ ((∃ k key, k < key0.X5c.length ∧ jwks.Keys.get? k = some key ∧
            token.Header.lookup "kid" = some (Value.str key.Kid)) →
          ∃ k v, k < key0.X5c.length ∧ key0.X5c.get? k = some v ∧
            getPemCert fetch env token
              = ⟨[env.AUTH0_DOMAIN ++ ".well-known/jwks.json"],
                  Exec.ret ("-----BEGIN CERTIFICATE-----\n" ++ v ++ "\n-----END CERTIFICATE-----")
                    none⟩) := by
  obtain ⟨h1, h2, h3, _⟩ := getPemCert_selects fetch env token jwks key0 hfetch hkey0 hlen
  refine ⟨h1, ?_, h3, ?_⟩
  · intro k key v hget hv hkid hlater
    have := h2 k key v hget hv hkid hlater
    simpa only [pemWrap] using this
  · intro hex
    obtain ⟨k, key, v, hk, hget, hv, hkid, hlater⟩ :=
      lastMatch_exists (token.Header.lookup "kid") jwks.Keys key0.X5c hlen hex
    refine ⟨k, v, hk, hv, ?_⟩
    have := h2 k key v hget hv hkid hlater
    simpa only [pemWrap] using this

/-- Witness for C10: a first record with two certificates in a key set of two records that
both carry the requested key id; the certificate at the largest matching index is returned. -/
theorem getPemCert_behaviour_witness :
    getPemCert (fetchKeys [mkKey "k1" ["A", "B"], mkKey "k1" ["C"]]) sampleEnv (mkToken "k1" [])
        = ⟨["https://tenant.auth0.com/.well-known/jwks.json"],
            Exec.ret ("-----BEGIN CERTIFICATE-----\n" ++ "B" ++ "\n-----END CERTIFICATE-----")
              none⟩
      ∧ "-----BEGIN CERTIFICATE-----\n" ++ "B" ++ "\n-----END CERTIFICATE-----"
        = "-----BEGIN CERTIFICATE-----\nB\n-----END CERTIFICATE-----" :=
  ⟨(getPemCert_behaviour (fetchKeys [mkKey "k1" ["A", "B"], mkKey "k1" ["C"]]) sampleEnv
    (mkToken "k1" []) ⟨[mkKey "k1" ["A", "B"], mkKey "k1" ["C"]]⟩ (mkKey "k1" ["A", "B"])
    rfl rfl (by decide)).2.1 1 (mkKey "k1" ["C"]) "B" rfl rfl rfl
    (by intro k2 key2 h1 h2 _; simp [mkKey] at h2; omega), by decide⟩

theorem VerifyAudience_str (m : List (String × Value)) (s cmp : String)
    (h : m.lookup "aud" = some (Value.str s)) (hne : s ≠ "") :
    VerifyAudience m cmp false = decide (s = cmp) := by
  simp only [VerifyAudience, h, verifyAud, hne, if_false]

theorem VerifyAudience_unset (m : List (String × Value)) (cmp : String)
    (h : ∀ s, m.lookup "aud" = some (Value.str s) → s = "") :
    VerifyAudience m cmp false = true := by
  unfold VerifyAudience
  cases hl : m.lookup "aud" with
  | none => simp [verifyAud]
  | some v =>
    cases v with
    | str s =>
      have := h s hl
      subst this
      simp [verifyAud]
    | other => simp [verifyAud]

theorem ValidationKeyGetter_checks_passed (fetch : String → FetchResult) (env : Env)
    (token : Token) (h1 : VerifyAudience token.Claims env.AUTH0_API_AUDIENCE false = true)
    (h2 : VerifyAudience token.Claims env.AUTH0_DOMAIN false = true) :
    (ValidationKeyGetter fetch env token).out
        ≠ Exec.ret (Returned.token token) (some "Invalid audience.")
      ∧ (ValidationKeyGetter fetch env token).out
        ≠ Exec.ret (Returned.token token) (some "Invalid issuer.") := by
  simp only [ValidationKeyGetter, h1, h2, Bool.not_true, Bool.false_eq_true, if_false]
  generalize getPemCert fetch env token = r
  obtain ⟨f, out⟩ := r
  cases out with
  | ret cert err => cases err <;> simp
  | panic m => simp
  | fatal m => simp

/-- C3, as stated, fails: a token without audience claim, and a token whose audience claim is
the empty string, pass the audience check although the expected audience is
"https://jokes-api"; the key set is fetched and the token's key is returned. -/
theorem ValidationKeyGetter_missing_audience_accepted :
    (mkToken "k1" []).Claims.lookup "aud" = none
      ∧ ValidationKeyGetter (fetchKeys [mkKey "k1" ["A"]]) sampleEnv (mkToken "k1" [])
        = ⟨["https://tenant.auth0.com/.well-known/jwks.json"],
            Exec.ret (Returned.publicKey (pemWrap "A")) none⟩
      ∧ ValidationKeyGetter (fetchKeys [mkKey "k1" ["A"]]) sampleEnv
          (mkToken "k1" [("aud", Value.str "")])
        = ⟨["https://tenant.auth0.com/.well-known/jwks.json"],
            Exec.ret (Returned.publicKey (pemWrap "A")) none⟩ := by
  decide

/-- C3, amended. For every token whose audience claim is a non-empty string different from the
expected audience (AUTH0_API_AUDIENCE), `ValidationKeyGetter` returns the token with the error
"Invalid audience.", whatever the token's other claims, header and the network, and without
any key-set fetch; a token whose audience claim is missing, empty or not a string is never
rejected with that error when it also passes the second check. -/
theorem ValidationKeyGetter_invalid_audience (fetch : String → FetchResult) (env : Env)
    (token : Token) (s : String)
    (haud : token.Claims.lookup "aud" = some (Value.str s))
    (hne : s ≠ "") (hdiff : s ≠ env.AUTH0_API_AUDIENCE) :
    ValidationKeyGetter fetch env token
        = ⟨[], Exec.ret (Returned.token token) (some "Invalid audience.")⟩
      ∧ ∀ other : Token,
          (∀ a, other.Claims.lookup "aud" = some (Value.str a) → a = "") →
          (ValidationKeyGetter fetch env other).out
            ≠ Exec.ret (Returned.token other) (some "Invalid audience.") := by
  constructor
  · have hv := VerifyAudience_str token.Claims s env.AUTH0_API_AUDIENCE haud hne
    simp only [ValidationKeyGetter, hv, hdiff, decide_False, Bool.not_false, if_true]
  · intro other hother
    exact (ValidationKeyGetter_checks_passed fetch env other
      (VerifyAudience_unset _ _ hother) (VerifyAudience_unset _ _ hother)).1

/-- Witness for C3 (amended): audience "https://other-api" against the expected
"https://jokes-api", with a matching issuer claim and a resolvable key id. -/
theorem ValidationKeyGetter_invalid_audience_witness :
    ValidationKeyGetter (fetchKeys [mkKey "k1" ["A"]]) sampleEnv
        (mkToken "k1" [("aud", Value.str "https://other-api"),
          ("iss", Value.str "https://tenant.auth0.com/")])
      = ⟨[], Exec.ret (Returned.token (mkToken "k1" [("aud", Value.str "https://other-api"),
          ("iss", Value.str "https://tenant.auth0.com/")])) (some "Invalid audience.")⟩ :=
  (ValidationKeyGetter_invalid_audience (fetchKeys [mkKey "k1" ["A"]]) sampleEnv
    (mkToken "k1" [("aud", Value.str "https://other-api"),
      ("iss", Value.str "https://tenant.auth0.com/")])
    "https://other-api" rfl (by decide) (by decide)).1

/-- C4, evaluation at the failing input: the issuer claim "https://evil.example.com/" differs
from the expected issuer "https://tenant.auth0.com/" and the audience check passes, yet no
"Invalid issuer." error is returned: the second check reads the audience claim again, and the
result is the same whatever the issuer claim is. -/
theorem ValidationKeyGetter_wrong_issuer_accepted :
    ValidationKeyGetter (fetchKeys [mkKey "k1" ["A"]]) sampleEnv
        (mkToken "k1" [("iss", Value.str "https://evil.example.com/")])
      = ⟨["https://tenant.auth0.com/.well-known/jwks.json"],
          Exec.ret (Returned.publicKey (pemWrap "A")) none⟩
      ∧ ValidationKeyGetter (fetchKeys [mkKey "k1" ["A"]]) ⟨"https://same/", "https://same/"⟩
          (mkToken "k1" [("aud", Value.str "https://same/"),
            ("iss", Value.str "https://evil.example.com/")])
        = ⟨["https://same/.well-known/jwks.json"],
            Exec.ret (Returned.publicKey (pemWrap "A")) none⟩ := by
  decide

/-- C5, evaluation at the failing input: audience and issuer claims both equal the expected
values (which differ from each other) and the key id is resolvable, yet `ValidationKeyGetter`
returns the token with the error "Invalid issuer." and fetches no key. -/
theorem ValidationKeyGetter_matching_claims_rejected :
    ValidationKeyGetter (fetchKeys [mkKey "k1" ["A"]]) sampleEnv
        (mkToken "k1" [("aud", Value.str "https://jokes-api"),
          ("iss", Value.str "https://tenant.auth0.com/")])
      = ⟨[], Exec.ret (Returned.token (mkToken "k1" [("aud", Value.str "https://jokes-api"),
          ("iss", Value.str "https://tenant.auth0.com/")])) (some "Invalid issuer.")⟩ := by
  decide

/-- C6, evaluation at the failing inputs: on an empty decoded key set, and on a key set whose
first record has more certificates than there are records, `getPemCert` panics with an index
out of range although no record carries the token's key id. -/
theorem getPemCert_panics :
    getPemCert (fetchKeys []) sampleEnv (mkToken "k9" [])
        = ⟨["https://tenant.auth0.com/.well-known/jwks.json"],
            Exec.panic "runtime error: index out of range"⟩
      ∧ getPemCert (fetchKeys [mkKey "k1" ["A", "B"]]) sampleEnv (mkToken "k9" [])
        = ⟨["https://tenant.auth0.com/.well-known/jwks.json"],
            Exec.panic "runtime error: index out of range"⟩ := by
  decide

/-- C7, evaluation at the failing input: the second record of the key set carries the token's
key id "k2", yet `getPemCert` returns the error "unable to find appropriate key.", because
only as many records are inspected as the first record has certificates; and when the first
record matches and has two certificates, the second one is returned, not `X5c[0]`. -/
theorem getPemCert_misses_second_record :
    getPemCert (fetchKeys [mkKey "k1" ["A"], mkKey "k2" ["B"]]) sampleEnv (mkToken "k2" [])
        = ⟨["https://tenant.auth0.com/.well-known/jwks.json"],
            Exec.ret "" (some "unable to find appropriate key.")⟩
      ∧ getPemCert (fetchKeys [mkKey "k1" ["A", "B"], mkKey "k1" ["C"]]) sampleEnv (mkToken "k1" [])
        = ⟨["https://tenant.auth0.com/.well-known/jwks.json"], Exec.ret (pemWrap "B") none⟩
      ∧ pemWrap "B" ≠ pemWrap "A" := by
  decide

end JokeApp
